import Mathlib

/-!
Verification of the multilspy Ruby LSP adapter
(`src/multilspy/language_servers/ruby_lsp/ruby_lsp.py`).

The development shallowly embeds the adapter's three operations:

* `getInitializeParams` — the template-substitution builder
  `RubyLSP._get_initialize_params`, over a JSON tree model with Python
  dict/list semantics (`del`, key lookup, key assignment, indexing,
  `assert`) in an `Except` monad;
* `setup` — `RubyLSP.setup_runtime_dependencies`, over an explicit
  environment (host platform, manifest contents, whether the target
  directory exists, whether `bundle`/`gem` are on the search path) and
  an explicit effect record (commands spawned, directory created);
* `startServerTrace` — the event trace of one scoped session of
  `RubyLSP.start_server`, parameterised by the stream of
  `window/logMessage` notification texts delivered to the registered
  handler and by whether the caller's body raises; the `server_ready`
  latch (`asyncio.Event`) is the boolean fold `windowLogMessage`.
-/

/-- Python exception classes that the embedded code can raise. -/
inductive PyError where
  | keyError (k : String)
  | typeError
  | indexError
  | assertionError
  | valueError
  | calledProcessError
deriving DecidableEq

/-- JSON-like values, the data loaded from `runtime_dependencies.json` and
`initialize_params.json`. Objects are ordered key/value lists, as Python
dicts are ordered. -/
inductive Json where
  | null
  | str (s : String)
  | num (n : Int)
  | bool (b : Bool)
  | arr (xs : List Json)
  | obj (kvs : List (String × Json))

/-- Python `v == s` for a JSON value `v` and a string literal `s`: true
exactly when `v` is that string (any non-string compares unequal). -/
def jsonEqStr : Json → String → Bool
  | .str s', s => s' = s
  | _, _ => false

/-- First value bound to key `k`, as Python dict lookup (dict keys are
unique in Python; on a list with duplicate keys this takes the first). -/
def lookupList : List (String × Json) → String → Option Json
  | [], _ => none
  | (k', v) :: rest, k => if k' = k then some v else lookupList rest k

/-- Python `d[k] = v` on a dict: overwrite in place when the key exists,
append at the end otherwise. -/
def setList : List (String × Json) → String → Json → List (String × Json)
  | [], k, v => [(k, v)]
  | (k', v') :: rest, k, v =>
    if k' = k then (k, v) :: rest else (k', v') :: setList rest k v

/-- Python `del d[k]` on a dict: remove the binding, `none` when absent. -/
def delList : List (String × Json) → String → Option (List (String × Json))
  | [], _ => none
  | (k', v') :: rest, k =>
    if k' = k then some rest else (delList rest k).map (fun l => (k', v') :: l)

/-- Key lookup on a JSON value; `none` when the value is not an object or
lacks the key. -/
def Json.lookupKey : Json → String → Option Json
  | .obj kvs, k => lookupList kvs k
  | _, _ => none

/-- Python subscript read `d[k]`: `KeyError` when the key is absent,
`TypeError` when `d` is not a dict. -/
def getItem : Json → String → Except PyError Json
  | .obj kvs, k =>
    match lookupList kvs k with
    | some v => .ok v
    | none => .error (.keyError k)
  | _, _ => .error .typeError

/-- Python subscript write `d[k] = v` (functional): `TypeError` when `d`
is not a dict. -/
def setItem : Json → String → Json → Except PyError Json
  | .obj kvs, k, v => .ok (.obj (setList kvs k v))
  | _, _, _ => .error .typeError

/-- Python `del d[k]`: `KeyError` when absent, `TypeError` when `d` is
not a dict. -/
def delItem : Json → String → Except PyError Json
  | .obj kvs, k =>
    match delList kvs k with
    | some kvs' => .ok (.obj kvs')
    | none => .error (.keyError k)
  | _, _ => .error .typeError

/-- Python index read `xs[i]` on a JSON array: `IndexError` out of range,
`TypeError` on a non-array. -/
def getIndex : Json → Nat → Except PyError Json
  | .arr xs, i =>
    match xs.get? i with
    | some v => .ok v
    | none => .error .indexError
  | _, _ => .error .typeError

/-- Python index write `xs[i] = v` (functional): `IndexError` out of
range, `TypeError` on a non-array. -/
def setIndex : Json → Nat → Json → Except PyError Json
  | .arr xs, i, v =>
    if i < xs.length then .ok (.arr (xs.set i v)) else .error .indexError
  | _, _, _ => .error .typeError

/-- Python `assert b`: raises `AssertionError` when `b` is false. -/
def pyAssert (b : Bool) : Except PyError Unit :=
  if b then .ok () else .error .assertionError

/-- UTF-8 bytes of one character, as `urllib` percent-encodes non-ASCII. -/
def utf8Bytes (c : Char) : List Nat :=
  let n := c.toNat
  if n < 0x80 then [n]
  else if n < 0x800 then [0xC0 + n / 0x40, 0x80 + n % 0x40]
  else if n < 0x10000 then
    [0xE0 + n / 0x1000, 0x80 + n / 0x40 % 0x40, 0x80 + n % 0x40]
  else
    [0xF0 + n / 0x40000, 0x80 + n / 0x1000 % 0x40, 0x80 + n / 0x40 % 0x40,
      0x80 + n % 0x40]

/-- Upper-case hexadecimal digit, for percent-escapes. -/
def hexDigit (n : Nat) : Char :=
  if n < 10 then Char.ofNat (48 + n) else Char.ofNat (55 + n)

/-- Characters `urllib.parse.quote` leaves unescaped in a path:
ASCII letters and digits, `_.-~`, and the separator `/`. -/
def isSafeChar (c : Char) : Bool :=
  (c.isAlpha && c.toNat < 0x80) || c.isDigit || c = '_' || c = '.' ||
    c = '-' || c = '~' || c = '/'

/-- Percent-encode one character of a POSIX path. -/
def quoteChar (c : Char) : String :=
  if isSafeChar c then String.mk [c]
  else String.join ((utf8Bytes c).map
    (fun b => String.mk ['%', hexDigit (b / 16), hexDigit (b % 16)]))

/-- Percent-encode a POSIX path, as `urllib.parse.quote` does inside
`pathlib.PurePosixPath.as_uri`. -/
def quotePath (p : String) : String :=
  String.join (p.toList.map quoteChar)

/-- The file URI form of an absolute POSIX path. -/
def fileUri (p : String) : String :=
  "file://" ++ quotePath p

/-- A POSIX path is absolute when it starts with `/` (what
`pathlib` requires of a path before `as_uri`). -/
def isAbsolute (p : String) : Bool :=
  match p.toList with
  | '/' :: _ => true
  | _ => false

/-- Python `pathlib.Path(p).as_uri()`: the file URI of an absolute path;
`ValueError` on a relative path. -/
def asUri (p : String) : Except PyError String :=
  if isAbsolute p then .ok (fileUri p) else .error .valueError

/-- Python `os.path.basename`: the substring after the last `/`. -/
def basename (p : String) : String :=
  ((p.splitOn "/").getLast? ).getD p

/-- The builder `RubyLSP._get_initialize_params(repository_absolute_path)`, with the
parsed contents of `initialize_params.json` passed in as `t` and
`os.getpid()` passed in as `pid`. Follows the source line by line:
delete `_description`, set `processId`, then for `rootPath`, `rootUri`,
`workspaceFolders[0]["uri"]` and `workspaceFolders[0]["name"]` assert the
sentinel is in place and replace it. -/
def getInitializeParams (pid : Int) (t : Json) (p : String) :
    Except PyError Json := do
  let d ← delItem t "_description"
  let d ← setItem d "processId" (.num pid)
  let rp ← getItem d "rootPath"
  pyAssert (jsonEqStr rp "$rootPath")
  let d ← setItem d "rootPath" (.str p)
  let ru ← getItem d "rootUri"
  pyAssert (jsonEqStr ru "$rootUri")
  let u ← asUri p
  let d ← setItem d "rootUri" (.str u)
  let wf ← getItem d "workspaceFolders"
  let w0 ← getIndex wf 0
  let uv ← getItem w0 "uri"
  pyAssert (jsonEqStr uv "$uri")
  let u2 ← asUri p
  let wf ← getItem d "workspaceFolders"
  let w0 ← getIndex wf 0
  let w0 ← setItem w0 "uri" (.str u2)
  let wf ← setIndex wf 0 w0
  let d ← setItem d "workspaceFolders" wf
  let wf2 ← getItem d "workspaceFolders"
  let w1 ← getIndex wf2 0
  let nv ← getItem w1 "name"
  pyAssert (jsonEqStr nv "$name")
  let w1 ← setItem w1 "name" (.str (basename p))
  let wf2 ← setIndex wf2 0 w1
  let d ← setItem d "workspaceFolders" wf2
  return d

/-- Whether `o` is `some v` with `v` the string `s` (Python `o == s` after a lookup that
found `o`; a missing key yields false). -/
def optIsStr (o : Option Json) (s : String) : Bool :=
  match o with
  | some v => jsonEqStr v s
  | none => false

/-- The first entry of the template's `workspaceFolders` array, when the
template is an object holding a nonempty array there. -/
def firstWorkspaceFolder (t : Json) : Option Json :=
  match t.lookupKey "workspaceFolders" with
  | some (.arr (w :: _)) => some w
  | _ => none

/-- All four sentinel fields that `_get_initialize_params` asserts on are
present and still hold their sentinel strings: `rootPath = "$rootPath"`,
`rootUri = "$rootUri"`, and `uri = "$uri"`, `name = "$name"` in the first
workspace folder. -/
def sentinelsOk (t : Json) : Bool :=
  optIsStr (t.lookupKey "rootPath") "$rootPath" &&
  optIsStr (t.lookupKey "rootUri") "$rootUri" &&
  optIsStr ((firstWorkspaceFolder t).bind (fun w => w.lookupKey "uri")) "$uri" &&
  optIsStr ((firstWorkspaceFolder t).bind (fun w => w.lookupKey "name")) "$name"

/-- Host platform identifiers. The seven supported ones come from the
allow-list in `setup_runtime_dependencies`; `win_x86` and `linux_x86`
stand for the remaining identifiers of `PlatformUtils.get_platform_id`
(outside the embedded file), which the allow-list rejects. -/
inductive PlatformId where
  | linux_x64
  | linux_arm64
  | osx
  | osx_x64
  | osx_arm64
  | win_x64
  | win_arm64
  | win_x86
  | linux_x86
deriving DecidableEq

/-- The `valid_platforms` allow-list of `setup_runtime_dependencies`. -/
def validPlatforms : List PlatformId :=
  [.linux_x64, .linux_arm64, .osx, .osx_x64, .osx_arm64, .win_x64,
    .win_arm64]

/-- Ambient state read by `setup_runtime_dependencies`: the host platform,
the parsed contents of `runtime_dependencies.json`, whether the target
directory `static/ruby-lsp` already exists, and whether `shutil.which`
finds `bundle` and `gem`. -/
structure SetupEnv where
  platform : PlatformId
  manifest : Json
  dirExists : Bool
  bundleOnPath : Bool
  gemOnPath : Bool

/-- Result of one run of `setup_runtime_dependencies`: the returned
launch command (or the exception), the `command` values handed to
`subprocess.run` in order, and whether `os.makedirs` was invoked. -/
structure SetupOutcome where
  result : Except PyError String
  spawned : List Json
  madeDir : Bool

/-- Python `for x in v`: arrays yield elements, dicts yield their keys,
strings yield one-character strings; other values raise `TypeError`. -/
def pyIter : Json → Except PyError (List Json)
  | .arr xs => .ok xs
  | .obj kvs => .ok (kvs.map (fun kv => .str kv.1))
  | .str s => .ok (s.toList.map (fun c => .str (String.mk [c])))
  | _ => .error .typeError

/-- The install loop body: for each dependency, read its `command` key and
run it through the shell with `check=True` (`cmdOk` tells whether the
spawned command exits zero; a nonzero exit raises
`CalledProcessError`). Returns the loop's outcome and the commands
spawned, in order. -/
def runDeps (cmdOk : Json → Bool) :
    List Json → List Json → Except PyError Unit × List Json
  | [], acc => (.ok (), acc)
  | dep :: rest, acc =>
    match getItem dep "command" with
    | .error e => (.error e, acc)
    | .ok c =>
      if cmdOk c then runDeps cmdOk rest (acc ++ [c])
      else (.error .calledProcessError, acc ++ [c])

/-- The bootstrapper `RubyLSP.setup_runtime_dependencies`, line by line: assert the
platform is in the allow-list; load the manifest and delete
`_description`; read `runtimeDependencies` with default `[]`; fix the
launch command `"bundle exec ruby-lsp"`; assert `bundle` and `gem` are on
the search path; then, only when the target directory does not exist,
create it and run each dependency's `command`; finally return the launch
command. -/
def setup (env : SetupEnv) (cmdOk : Json → Bool) : SetupOutcome :=
  if env.platform ∈ validPlatforms then
    match delItem env.manifest "_description" with
    | .error e => ⟨.error e, [], false⟩
    | .ok d =>
      let runtimeDependencies := (d.lookupKey "runtimeDependencies").getD (.arr [])
      let rubyLspCommand := "bundle exec ruby-lsp"
      if env.bundleOnPath then
        if env.gemOnPath then
          if env.dirExists then ⟨.ok rubyLspCommand, [], false⟩
          else
            match pyIter runtimeDependencies with
            | .error e => ⟨.error e, [], true⟩
            | .ok deps =>
              match runDeps cmdOk deps [] with
              | (.ok _, spawned) => ⟨.ok rubyLspCommand, spawned, true⟩
              | (.error e, spawned) => ⟨.error e, spawned, true⟩
        else ⟨.error .assertionError, [], false⟩
      else ⟨.error .assertionError, [], false⟩
  else ⟨.error .assertionError, [], false⟩

/-- Whether `sub` occurs as a contiguous substring of `hay` (Python `sub in hay`
on strings). -/
def strContains (hay sub : String) : Bool :=
  decide ( List.IsInfix sub.toList hay.toList)

/-- The `window_log_message` handler's effect on the `server_ready` latch:
`self.server_ready.set()` when the notification's message text contains
`"Finished"`, otherwise the latch is left as it is. -/
def windowLogMessage (serverReady : Bool) (message : String) : Bool :=
  if strContains message "Finished" then true else serverReady

/-- Initial latch state, `self.server_ready = asyncio.Event()` in `RubyLSP.__init__`: the
latch starts unset. -/
def serverReadyInit : Bool := false

/-- The latch after the handler has observed the session's
`window/logMessage` notification texts, in delivery order. -/
def sessionReady (notifs : List String) : Bool :=
  List.foldl windowLogMessage serverReadyInit notifs

/-- Observable steps of one scoped `start_server` session. -/
inductive SessionEvent where
  | registerHandler (method : String)
  | processStart
  | sendInitializeRequest
  | recvInitializeResponse
  | notifyInitialized
  | setCompletionsAvailable
  | awaitServerReady
  | yieldToCaller
  | requestShutdown
  | stopServer
deriving DecidableEq

/-- The four handler registrations at the top of `start_server`, in
source order, before any byte is exchanged with the server. -/
def handlerRegistrations : List SessionEvent :=
  [.registerHandler "window/logMessage",
    .registerHandler "workspace/executeClientCommand",
    .registerHandler "$/progress",
    .registerHandler "textDocument/publishDiagnostics"]

/-- The event trace of one scoped session of `RubyLSP.start_server`.
`paramsOk` tells whether `_get_initialize_params` returned (an exception
there propagates and aborts the handshake); `notifs` is the stream of
`window/logMessage` texts the registered handler observes during the
session (when none contains the marker, `await self.server_ready.wait()`
never completes, so the session never yields); `bodyRaises` tells whether
the caller's body raises inside the scope. The statements
`await self.server.shutdown()` and `await self.server.stop()` follow
`yield self` with no enclosing `try`/`finally`, so an exception thrown
into the generator at the yield point skips them; the base class's
`start_server` context does not touch the child process. -/
def startServerTrace (paramsOk : Bool) (notifs : List String)
    (bodyRaises : Bool) : List SessionEvent :=
  handlerRegistrations ++ [.processStart] ++
    (if paramsOk then
      [.sendInitializeRequest, .recvInitializeResponse, .notifyInitialized,
        .setCompletionsAvailable] ++
        (if sessionReady notifs then
          [.awaitServerReady, .yieldToCaller] ++
            (if bodyRaises then [] else [.requestShutdown, .stopServer])
        else [])
    else [])

/-- No occurrence of `b` strictly before the first occurrence of `a`
(vacuously true when neither occurs). -/
def precedes (a b : SessionEvent) : List SessionEvent → Bool
  | [] => true
  | e :: rest => if e = b then false else if e = a then true else precedes a b rest

theorem ok_bind {ε α β : Type} (a : α) (f : α → Except ε β) :
    (Except.ok a : Except ε α) >>= f = f a := rfl

theorem error_bind {ε α β : Type} (e : ε) (f : α → Except ε β) :
    (Except.error e : Except ε α) >>= f = Except.error e := rfl

theorem exceptBind_ok {ε α β : Type} {x : Except ε α} {f : α → Except ε β}
    {b : β} : x >>= f = .ok b ↔ ∃ a, x = .ok a ∧ f a = .ok b := by
  cases x <;> simp [Bind.bind, Except.bind]

theorem jsonEqStr_eq {v : Json} {s : String} :
    jsonEqStr v s = true ↔ v = .str s := by
  cases v <;> simp [jsonEqStr]

theorem lookupList_setList (kvs : List (String × Json)) (k : String)
    (v : Json) (k' : String) :
    lookupList (setList kvs k v) k' =
      if k' = k then some v else lookupList kvs k' := by
  induction kvs with
  | nil =>
    by_cases h : k' = k
    · subst h; simp [setList, lookupList]
    · simp [setList, lookupList, h, Ne.symm h]
  | cons hd tl ih =>
    obtain ⟨k₀, v₀⟩ := hd
    by_cases h₀ : k₀ = k
    · subst h₀
      by_cases h : k' = k₀
      · subst h; simp [setList, lookupList]
      · simp [setList, lookupList, h, Ne.symm h]
    · by_cases h₁ : k₀ = k'
      · subst h₁
        simp [setList, lookupList, h₀, Ne.symm h₀]
      · simp [setList, lookupList, h₀, h₁, ih]

theorem delList_of_lookup (kvs : List (String × Json)) (k : String)
    (v : Json) (h : lookupList kvs k = some v) :
    ∃ kvs', delList kvs k = some kvs' := by
  induction kvs with
  | nil => simp [lookupList] at h
  | cons hd tl ih =>
    obtain ⟨k₀, v₀⟩ := hd
    by_cases h₀ : k₀ = k
    · exact ⟨tl, by simp [delList, h₀]⟩
    · simp only [lookupList, if_neg h₀] at h
      obtain ⟨l, hl⟩ := ih h
      exact ⟨(k₀, v₀) :: l, by simp [delList, h₀, hl]⟩

theorem lookupList_delList (kvs kvs' : List (String × Json)) (k k' : String)
    (hne : k' ≠ k) (h : delList kvs k = some kvs') :
    lookupList kvs' k' = lookupList kvs k' := by
  induction kvs generalizing kvs' with
  | nil => simp [delList] at h
  | cons hd tl ih =>
    obtain ⟨k₀, v₀⟩ := hd
    by_cases h₀ : k₀ = k
    · simp only [delList, if_pos h₀] at h
      cases h
      subst h₀
      simp [lookupList, Ne.symm hne]
    · simp only [delList, if_neg h₀, Option.map_eq_some'] at h
      obtain ⟨l, hl, rfl⟩ := h
      by_cases h₁ : k₀ = k'
      · simp [lookupList, h₁]
      · simp [lookupList, h₁, ih l hl]

theorem getItem_obj_some {kvs : List (String × Json)} {k : String} {v : Json}
    (h : lookupList kvs k = some v) : getItem (.obj kvs) k = .ok v := by
  simp [getItem, h]

theorem setItem_obj (kvs : List (String × Json)) (k : String) (v : Json) :
    setItem (.obj kvs) k v = .ok (.obj (setList kvs k v)) := rfl

theorem delItem_obj_some {kvs kvs' : List (String × Json)} {k : String}
    (h : delList kvs k = some kvs') : delItem (.obj kvs) k = .ok (.obj kvs') := by
  simp [delItem, h]

theorem getIndex_cons (w : Json) (ws : List Json) :
    getIndex (.arr (w :: ws)) 0 = .ok w := rfl

theorem setIndex_cons (w : Json) (ws : List Json) (v : Json) :
    setIndex (.arr (w :: ws)) 0 v = .ok (.arr (v :: ws)) := by
  simp [setIndex, List.set]

theorem asUri_abs {p : String} (h : isAbsolute p = true) :
    asUri p = .ok (fileUri p) := by
  simp [asUri, h]

theorem getItem_obj_ok {kvs : List (String × Json)} {k : String} {v : Json} :
    getItem (.obj kvs) k = .ok v ↔ lookupList kvs k = some v := by
  cases hl : lookupList kvs k <;> simp [getItem, hl]

theorem getItem_ok_shape {j v : Json} {k : String} (h : getItem j k = .ok v) :
    ∃ kvs, j = .obj kvs ∧ lookupList kvs k = some v := by
  cases j with
  | obj kvs => exact ⟨kvs, rfl, getItem_obj_ok.mp h⟩
  | null => simp [getItem] at h
  | str s => simp [getItem] at h
  | num n => simp [getItem] at h
  | bool b => simp [getItem] at h
  | arr xs => simp [getItem] at h

theorem getIndex_ok_shape {j v : Json} {i : Nat} (h : getIndex j i = .ok v) :
    ∃ xs, j = .arr xs ∧ xs.get? i = some v := by
  cases j with
  | arr xs =>
    refine ⟨xs, rfl, ?_⟩
    simp only [getIndex] at h
    cases hx : xs.get? i with
    | none => rw [hx] at h; exact Except.noConfusion h
    | some a => rw [hx] at h; exact congrArg some (Except.ok.inj h)
  | null => simp [getIndex] at h
  | str s => simp [getIndex] at h
  | num n => simp [getIndex] at h
  | bool b => simp [getIndex] at h
  | obj kvs => simp [getIndex] at h

theorem delItem_ok_shape {t d : Json} {k : String} (h : delItem t k = .ok d) :
    ∃ kvs kvs', t = .obj kvs ∧ delList kvs k = some kvs' ∧ d = .obj kvs' := by
  cases t with
  | obj kvs =>
    cases hdl : delList kvs k with
    | none => simp [delItem, hdl] at h
    | some l =>
      simp only [delItem, hdl, Except.ok.injEq] at h
      exact ⟨kvs, l, rfl, hdl, h.symm⟩
  | null => simp [delItem] at h
  | str s => simp [delItem] at h
  | num n => simp [delItem] at h
  | bool b => simp [delItem] at h
  | arr xs => simp [delItem] at h

theorem pyAssert_ok_iff {b : Bool} {u : Unit} : pyAssert b = .ok u ↔ b = true := by
  cases b <;> simp [pyAssert]

theorem geti_ok_implies {pid : Int} {t : Json} {p : String} {r : Json}
    (h : getInitializeParams pid t p = .ok r) : sentinelsOk t = true := by
  simp only [getInitializeParams, exceptBind_ok, pure, Except.pure,
    Except.ok.injEq] at h
  obtain ⟨d₁, hdel, d₂, hset₁, rp, hrp, u₀, hass₁, d₃, hset₂, ru, hru,
    u₁, hass₂, us₁, huri₁, d₄, hset₃, wf, hwf, w₀, hw₀, uv, huv, u₂, hass₃,
    us₂, huri₂, wfb, hwfb, w₀b, hw₀b, w₁, hsetw₁, wf₂, hsetidx₁, d₅, hset₄,
    wf₃, hwf₃, w₂, hw₂, nv, hnv, u₃, hass₄, w₃, hsetw₂, wf₄, hsetidx₂,
    d₆, hset₅, hret⟩ := h
  obtain ⟨kvs, d₀, rfl, hdl, rfl⟩ := delItem_ok_shape hdel
  simp only [setItem_obj, Except.ok.injEq] at hset₁
  subst hset₁
  replace hass₁ := jsonEqStr_eq.mp (pyAssert_ok_iff.mp hass₁)
  subst hass₁
  replace hrp := getItem_obj_ok.mp hrp
  rw [lookupList_setList, if_neg (by decide),
    lookupList_delList kvs d₀ _ _ (by decide) hdl] at hrp
  simp only [setItem_obj, Except.ok.injEq] at hset₂
  subst hset₂
  replace hass₂ := jsonEqStr_eq.mp (pyAssert_ok_iff.mp hass₂)
  subst hass₂
  replace hru := getItem_obj_ok.mp hru
  rw [lookupList_setList, if_neg (by decide), lookupList_setList,
    if_neg (by decide), lookupList_delList kvs d₀ _ _ (by decide) hdl] at hru
  simp only [setItem_obj, Except.ok.injEq] at hset₃
  subst hset₃
  replace hwf := getItem_obj_ok.mp hwf
  rw [lookupList_setList, if_neg (by decide), lookupList_setList,
    if_neg (by decide), lookupList_setList, if_neg (by decide),
    lookupList_delList kvs d₀ _ _ (by decide) hdl] at hwf
  obtain ⟨xs, rfl, hx⟩ := getIndex_ok_shape hw₀
  cases xs with
  | nil => simp at hx
  | cons a rest =>
    simp only [List.get?] at hx
    injection hx with hx
    subst hx
    obtain ⟨wkvs0, rfl, hwu⟩ := getItem_ok_shape huv
    replace hass₃ := jsonEqStr_eq.mp (pyAssert_ok_iff.mp hass₃)
    subst hass₃
    replace hnvfact : lookupList wkvs0 "name" = some nv := by
      -- trace the second pass through workspaceFolders
      replace hwfb := getItem_obj_ok.mp hwfb
      rw [lookupList_setList, if_neg (by decide), lookupList_setList,
        if_neg (by decide), lookupList_setList, if_neg (by decide),
        lookupList_delList kvs d₀ _ _ (by decide) hdl] at hwfb
      rw [hwf] at hwfb
      injection hwfb with hwfb
      subst hwfb
      simp only [getIndex_cons, Except.ok.injEq] at hw₀b
      subst hw₀b
      simp only [setItem_obj, Except.ok.injEq] at hsetw₁
      subst hsetw₁
      simp only [setIndex_cons, Except.ok.injEq] at hsetidx₁
      subst hsetidx₁
      simp only [setItem_obj, Except.ok.injEq] at hset₄
      subst hset₄
      replace hwf₃ := getItem_obj_ok.mp hwf₃
      rw [lookupList_setList, if_pos rfl] at hwf₃
      injection hwf₃ with hwf₃
      subst hwf₃
      simp only [getIndex_cons, Except.ok.injEq] at hw₂
      subst hw₂
      replace hnv := getItem_obj_ok.mp hnv
      rw [lookupList_setList, if_neg (by decide)] at hnv
      exact hnv
    replace hass₄ := jsonEqStr_eq.mp (pyAssert_ok_iff.mp hass₄)
    subst hass₄
    simp [sentinelsOk, Json.lookupKey, firstWorkspaceFolder, optIsStr,
      jsonEqStr, hrp, hru, hwf, hwu, hnvfact]

/-- C2: whenever any sentinel field (`rootPath`, `rootUri`, the first
workspace folder's `uri` or `name`) is missing from the template or does
not equal its sentinel string, `_get_initialize_params` raises and does
not return a partially-substituted parameter tree. -/
theorem getInitializeParams_fails_on_bad_sentinel (pid : Int) (t : Json)
    (p : String) (h : sentinelsOk t = false) :
    ∃ e, getInitializeParams pid t p = .error e := by
  cases hr : getInitializeParams pid t p with
  | error e => exact ⟨e, rfl⟩
  | ok r => rw [geti_ok_implies hr] at h; exact absurd h (by simp)

/-- Witness for C2: a template whose `rootPath` was already mutated is
rejected. -/
theorem getInitializeParams_fails_on_bad_sentinel_witness :
    sentinelsOk (.obj [("_description", .str "doc"),
      ("rootPath", .str "/already")]) = false ∧
    ∃ e, getInitializeParams 7 (.obj [("_description", .str "doc"),
      ("rootPath", .str "/already")]) "/repo" = .error e :=
  ⟨by decide, getInitializeParams_fails_on_bad_sentinel 7 _ "/repo" (by decide)⟩

/-- C3: with every sentinel in place and an absolute repository path,
`_get_initialize_params` returns the template with `processId` set to the
current process id, `rootPath` set to the path, `rootUri` and the first
workspace folder's `uri` set to the path's file URI, the folder's `name`
set to the path's final component, all other fields (and the remaining
workspace folders) unchanged. -/
theorem getInitializeParams_substitutes (pid : Int)
    (kvs wkvs : List (String × Json)) (ws : List Json) (dv : Json)
    (p : String)
    (hdesc : lookupList kvs "_description" = some dv)
    (habs : isAbsolute p = true)
    (hrp : lookupList kvs "rootPath" = some (.str "$rootPath"))
    (hru : lookupList kvs "rootUri" = some (.str "$rootUri"))
    (hwf : lookupList kvs "workspaceFolders" = some (.arr (.obj wkvs :: ws)))
    (hu : lookupList wkvs "uri" = some (.str "$uri"))
    (hn : lookupList wkvs "name" = some (.str "$name")) :
    ∃ r, getInitializeParams pid (.obj kvs) p = .ok r ∧
      r.lookupKey "processId" = some (.num pid) ∧
      r.lookupKey "rootPath" = some (.str p) ∧
      r.lookupKey "rootUri" = some (.str (fileUri p)) ∧
      (∃ w, r.lookupKey "workspaceFolders" = some (.arr (.obj w :: ws)) ∧
        lookupList w "uri" = some (.str (fileUri p)) ∧
        lookupList w "name" = some (.str (basename p)) ∧
        (∀ k, k ≠ "uri" → k ≠ "name" → lookupList w k = lookupList wkvs k)) ∧
      (∀ k, k ≠ "_description" → k ≠ "processId" → k ≠ "rootPath" →
        k ≠ "rootUri" → k ≠ "workspaceFolders" →
        r.lookupKey k = lookupList kvs k) := by
  obtain ⟨d₀, hdl⟩ := delList_of_lookup kvs "_description" dv hdesc
  have eDel : ∀ k', k' ≠ "_description" →
      lookupList d₀ k' = lookupList kvs k' :=
    fun k' hk => lookupList_delList kvs d₀ _ k' hk hdl
  have lA : lookupList (setList d₀ "processId" (.num pid)) "rootPath" =
      some (.str "$rootPath") := by
    rw [lookupList_setList, if_neg (by decide), eDel _ (by decide), hrp]
  have lB : lookupList (setList (setList d₀ "processId" (.num pid))
      "rootPath" (.str p)) "rootUri" = some (.str "$rootUri") := by
    rw [lookupList_setList, if_neg (by decide), lookupList_setList,
      if_neg (by decide), eDel _ (by decide), hru]
  have lC : lookupList (setList (setList (setList d₀ "processId"
      (.num pid)) "rootPath" (.str p)) "rootUri" (.str (fileUri p)))
      "workspaceFolders" = some (.arr (.obj wkvs :: ws)) := by
    rw [lookupList_setList, if_neg (by decide), lookupList_setList,
      if_neg (by decide), lookupList_setList, if_neg (by decide),
      eDel _ (by decide), hwf]
  have lD : lookupList (setList (setList (setList (setList d₀ "processId"
      (.num pid)) "rootPath" (.str p)) "rootUri" (.str (fileUri p)))
      "workspaceFolders" (.arr (.obj (setList wkvs "uri"
      (.str (fileUri p))) :: ws))) "workspaceFolders" =
      some (.arr (.obj (setList wkvs "uri" (.str (fileUri p))) :: ws)) := by
    rw [lookupList_setList, if_pos rfl]
  have lW1 : lookupList (setList wkvs "uri" (.str (fileUri p))) "name" =
      some (.str "$name") := by
    rw [lookupList_setList, if_neg (by decide), hn]
  refine ⟨.obj (setList (setList (setList (setList (setList d₀ "processId"
      (.num pid)) "rootPath" (.str p)) "rootUri" (.str (fileUri p)))
      "workspaceFolders" (.arr (.obj (setList wkvs "uri"
      (.str (fileUri p))) :: ws))) "workspaceFolders"
      (.arr (.obj (setList (setList wkvs "uri" (.str (fileUri p)))
      "name" (.str (basename p))) :: ws))), ?_, ?_, ?_, ?_, ?_, ?_⟩
  · simp only [getInitializeParams, delItem_obj_some hdl, ok_bind,
      setItem_obj, getItem_obj_some lA, getItem_obj_some lB,
      getItem_obj_some lC, getItem_obj_some lD, getItem_obj_some lW1,
      getItem_obj_some hu, asUri_abs habs, getIndex_cons, setIndex_cons,
      jsonEqStr, pyAssert, pure, Except.pure]
    rfl
  · simp only [Json.lookupKey]
    rw [lookupList_setList, if_neg (by decide), lookupList_setList,
      if_neg (by decide), lookupList_setList, if_neg (by decide),
      lookupList_setList, if_neg (by decide), lookupList_setList,
      if_pos rfl]
  · simp only [Json.lookupKey]
    rw [lookupList_setList, if_neg (by decide), lookupList_setList,
      if_neg (by decide), lookupList_setList, if_neg (by decide),
      lookupList_setList, if_pos rfl]
  · simp only [Json.lookupKey]
    rw [lookupList_setList, if_neg (by decide), lookupList_setList,
      if_neg (by decide), lookupList_setList, if_pos rfl]
  · refine ⟨setList (setList wkvs "uri" (.str (fileUri p))) "name"
      (.str (basename p)), ?_, ?_, ?_, ?_⟩
    · simp only [Json.lookupKey]
      rw [lookupList_setList, if_pos rfl]
    · rw [lookupList_setList, if_neg (by decide), lookupList_setList,
        if_pos rfl]
    · rw [lookupList_setList, if_pos rfl]
    · intro k hk1 hk2
      rw [lookupList_setList, if_neg hk2, lookupList_setList, if_neg hk1]
  · intro k h1 h2 h3 h4 h5
    simp only [Json.lookupKey]
    rw [lookupList_setList, if_neg h5, lookupList_setList, if_neg h5,
      lookupList_setList, if_neg h4, lookupList_setList, if_neg h3,
      lookupList_setList, if_neg h2, eDel _ h1]

/-- Witness for C3: a concrete template with all sentinels in place is
substituted successfully. -/
theorem getInitializeParams_substitutes_witness :
    ∃ r, getInitializeParams 42 (.obj [("_description", .str "doc"),
      ("processId", .null), ("rootPath", .str "$rootPath"),
      ("rootUri", .str "$rootUri"),
      ("workspaceFolders", .arr [.obj [("uri", .str "$uri"),
        ("name", .str "$name")]])]) "/home/user/repo" = .ok r ∧
      r.lookupKey "rootPath" = some (.str "/home/user/repo") := by
  obtain ⟨r, h1, -, h2, -⟩ := getInitializeParams_substitutes 42
    [("_description", .str "doc"), ("processId", .null),
      ("rootPath", .str "$rootPath"), ("rootUri", .str "$rootUri"),
      ("workspaceFolders", .arr [.obj [("uri", .str "$uri"),
        ("name", .str "$name")]])]
    [("uri", .str "$uri"), ("name", .str "$name")] [] (.str "doc")
    "/home/user/repo" rfl (by decide) rfl rfl rfl rfl rfl
  exact ⟨r, h1, h2⟩

/-- C4: when the target directory already exists,
`setup_runtime_dependencies` spawns no install process and does not touch
the filesystem; consequently a second invocation after a run that created
the directory spawns nothing. -/
theorem setup_idempotent (env : SetupEnv) (cmdOk : Json → Bool) :
    (env.dirExists = true → (setup env cmdOk).spawned = [] ∧
      (setup env cmdOk).madeDir = false) ∧
    ((setup env cmdOk).madeDir = true →
      (setup { env with dirExists := true } cmdOk).spawned = []) := by
  have main : ∀ e : SetupEnv, e.dirExists = true →
      (setup e cmdOk).spawned = [] ∧ (setup e cmdOk).madeDir = false := by
    intro e he
    obtain ⟨pf, mf, de, bo, go⟩ := e
    replace he : de = true := he
    subst he
    by_cases hp : pf ∈ validPlatforms
    · simp only [setup, if_pos hp]
      cases hdel : delItem mf "_description" with
      | error e => exact ⟨by trivial, by trivial⟩
      | ok d => cases bo <;> cases go <;> exact ⟨by trivial, by trivial⟩
    · simp only [setup, if_neg hp]; exact ⟨by trivial, by trivial⟩
  exact ⟨fun h => main env h, fun _ => (main { env with dirExists := true } rfl).1⟩

/-- Witness for C4: with the directory present, a run spawns nothing. -/
theorem setup_idempotent_witness :
    (setup ⟨.linux_x64, .obj [("_description", .str "d")], true, true,
      true⟩ (fun _ => true)).spawned = [] ∧
    (setup ⟨.linux_x64, .obj [("_description", .str "d")], true, true,
      true⟩ (fun _ => true)).madeDir = false :=
  (setup_idempotent ⟨.linux_x64, .obj [("_description", .str "d")], true,
    true, true⟩ (fun _ => true)).1 rfl

/-- C8: whatever the platform, manifest contents, directory state and
command outcomes, when `setup_runtime_dependencies` returns, the returned
launch command is the constant `"bundle exec ruby-lsp"`. -/
theorem setup_returns_constant_command (env : SetupEnv)
    (cmdOk : Json → Bool) (s : String)
    (h : (setup env cmdOk).result = .ok s) :
    s = "bundle exec ruby-lsp" := by
  have shape : (setup env cmdOk).result = .ok "bundle exec ruby-lsp" ∨
      ∃ er, (setup env cmdOk).result = .error er := by
    simp only [setup]
    repeat' split
    all_goals first
      | exact .inl rfl
      | exact .inr ⟨_, rfl⟩
  rcases shape with hok | ⟨er, herr⟩
  · rw [h] at hok
    exact Except.ok.inj hok
  · rw [h] at herr
    exact Except.noConfusion herr

/-- Witness for C8: a run over an existing directory returns the
constant command. -/
theorem setup_returns_constant_command_witness :
    ∃ s, (setup ⟨.linux_x64, .obj [("_description", .str "d")], true,
      true, true⟩ (fun _ => true)).result = .ok s ∧
      s = "bundle exec ruby-lsp" :=
  ⟨"bundle exec ruby-lsp", rfl,
    setup_returns_constant_command
      ⟨.linux_x64, .obj [("_description", .str "d")], true, true, true⟩
      (fun _ => true) "bundle exec ruby-lsp" rfl⟩

/-- C9: a manifest with no `runtimeDependencies` key does not make
`setup_runtime_dependencies` raise: the dependency list defaults to
empty, the directory is created, no install command is spawned, and the
launch command is returned. -/
theorem setup_no_deps_key_ok (env : SetupEnv) (cmdOk : Json → Bool)
    (kvs : List (String × Json)) (dv : Json)
    (hm : env.manifest = .obj kvs)
    (hdesc : lookupList kvs "_description" = some dv)
    (hnone : lookupList kvs "runtimeDependencies" = none)
    (hp : env.platform ∈ validPlatforms)
    (hb : env.bundleOnPath = true) (hg : env.gemOnPath = true)
    (hd : env.dirExists = false) :
    (setup env cmdOk).result = .ok "bundle exec ruby-lsp" ∧
    (setup env cmdOk).spawned = [] ∧ (setup env cmdOk).madeDir = true := by
  obtain ⟨d₀, hdl⟩ := delList_of_lookup kvs "_description" dv hdesc
  have h0 : lookupList d₀ "runtimeDependencies" = none := by
    rw [lookupList_delList kvs d₀ _ _ (by decide) hdl]; exact hnone
  obtain ⟨pf, mf, de, bo, go⟩ := env
  replace hm : mf = .obj kvs := hm
  replace hb : bo = true := hb
  replace hg : go = true := hg
  replace hd : de = false := hd
  subst hm hb hg hd
  simp only [setup, if_pos hp, delItem_obj_some hdl, Json.lookupKey, h0,
    Option.getD]
  exact ⟨by trivial, by trivial, by trivial⟩

/-- Witness for C9: a manifest holding only `_description`. -/
theorem setup_no_deps_key_ok_witness :
    (setup ⟨.osx, .obj [("_description", .str "d")], false, true, true⟩
      (fun _ => true)).result = .ok "bundle exec ruby-lsp" ∧
    (setup ⟨.osx, .obj [("_description", .str "d")], false, true, true⟩
      (fun _ => true)).spawned = [] ∧
    (setup ⟨.osx, .obj [("_description", .str "d")], false, true, true⟩
      (fun _ => true)).madeDir = true :=
  setup_no_deps_key_ok _ (fun _ => true) [("_description", .str "d")]
    (.str "d") rfl rfl rfl (by decide) rfl rfl rfl

theorem delList_none_of_lookup_none (kvs : List (String × Json))
    (k : String) (h : lookupList kvs k = none) : delList kvs k = none := by
  induction kvs with
  | nil => rfl
  | cons hd tl ih =>
    obtain ⟨k₀, v₀⟩ := hd
    by_cases h₀ : k₀ = k
    · simp [lookupList, h₀] at h
    · simp only [lookupList, if_neg h₀] at h
      simp [delList, h₀, ih h]

theorem delItem_error_of_none {j : Json} {k : String}
    (h : j.lookupKey k = none) : ∃ e, delItem j k = .error e := by
  cases j with
  | obj kvs =>
    refine ⟨.keyError k, ?_⟩
    simp only [Json.lookupKey] at h
    simp [delItem, delList_none_of_lookup_none kvs k h]
  | null => exact ⟨.typeError, rfl⟩
  | str s => exact ⟨.typeError, rfl⟩
  | num n => exact ⟨.typeError, rfl⟩
  | bool b => exact ⟨.typeError, rfl⟩
  | arr xs => exact ⟨.typeError, rfl⟩

/-- C10: the `_description` key is mandatory in both external files —
when it is absent from the runtime dependency manifest,
`setup_runtime_dependencies` raises, and when it is absent from the
parameter template, `_get_initialize_params` raises. -/
theorem description_key_mandatory (env : SetupEnv) (cmdOk : Json → Bool)
    (pid : Int) (t : Json) (p : String) :
    (env.manifest.lookupKey "_description" = none →
      ∃ e, (setup env cmdOk).result = .error e) ∧
    (t.lookupKey "_description" = none →
      ∃ e, getInitializeParams pid t p = .error e) := by
  constructor
  · intro h
    obtain ⟨e, he⟩ := delItem_error_of_none h
    by_cases hp : env.platform ∈ validPlatforms
    · refine ⟨e, ?_⟩
      simp only [setup, if_pos hp, he]
    · refine ⟨.assertionError, ?_⟩
      simp only [setup, if_neg hp]
  · intro h
    obtain ⟨e, he⟩ := delItem_error_of_none h
    refine ⟨e, ?_⟩
    simp only [getInitializeParams, he, error_bind]

/-- Witness for C10: the empty JSON object lacks `_description`, and both
operations reject it. -/
theorem description_key_mandatory_witness :
    (∃ e, (setup ⟨.osx, .obj [], false, true, true⟩
      (fun _ => true)).result = .error e) ∧
    (∃ e, getInitializeParams 5 (.obj []) "/r" = .error e) :=
  ⟨(description_key_mandatory ⟨.osx, .obj [], false, true, true⟩
      (fun _ => true) 5 (.obj []) "/r").1 rfl,
    (description_key_mandatory ⟨.osx, .obj [], false, true, true⟩
      (fun _ => true) 5 (.obj []) "/r").2 rfl⟩

theorem windowLogMessage_true (m : String) :
    windowLogMessage true m = true := by
  unfold windowLogMessage; split <;> rfl

theorem foldl_wlm_true (msgs : List String) :
    List.foldl windowLogMessage true msgs = true := by
  induction msgs with
  | nil => rfl
  | cons a l ih => rw [List.foldl_cons, windowLogMessage_true]; exact ih

theorem foldl_wlm_exists (msgs : List String) : ∀ init : Bool,
    List.foldl windowLogMessage init msgs = true →
    init = true ∨ ∃ m ∈ msgs, strContains m "Finished" = true := by
  induction msgs with
  | nil => intro init h; exact .inl h
  | cons a l ih =>
    intro init h
    rw [List.foldl_cons] at h
    rcases ih (windowLogMessage init a) h with h' | ⟨m, hm, hc⟩
    · unfold windowLogMessage at h'
      by_cases hca : strContains a "Finished" = true
      · exact .inr ⟨a, by simp, hca⟩
      · rw [if_neg hca] at h'
        exact .inl h'
    · exact .inr ⟨m, List.mem_cons_of_mem _ hm, hc⟩

/-- C7: the `server_ready` latch starts unset, a set latch stays set
across any further notification, and once a prefix of the notification
stream has set it, delivering any further suffix leaves it set. -/
theorem server_ready_latch_monotonic :
    serverReadyInit = false ∧
    (∀ msg, windowLogMessage true msg = true) ∧
    (∀ (init : Bool) (pre suf : List String),
      List.foldl windowLogMessage init pre = true →
      List.foldl windowLogMessage init (pre ++ suf) = true) := by
  refine ⟨rfl, windowLogMessage_true, ?_⟩
  intro init pre suf h
  rw [List.foldl_append, h]
  exact foldl_wlm_true suf

/-- Witness for C7: a latch set by a matching message survives further
non-matching messages. -/
theorem server_ready_latch_monotonic_witness :
    List.foldl windowLogMessage serverReadyInit
      (["indexing Finished"] ++ ["other", "done"]) = true :=
  server_ready_latch_monotonic.2.2 serverReadyInit ["indexing Finished"]
    ["other", "done"] (by decide)

/-- C5: in every session trace, no `initialized` notification occurs
before the `initialize` response has been received and processed. -/
theorem handshake_response_precedes_notify (paramsOk : Bool)
    (notifs : List String) (bodyRaises : Bool) :
    precedes .recvInitializeResponse .notifyInitialized
      (startServerTrace paramsOk notifs bodyRaises) = true := by
  cases paramsOk with
  | false => rfl
  | true =>
    cases bodyRaises <;> cases hs : sessionReady notifs <;>
      simp only [startServerTrace, hs] <;> decide

/-- C6: the session yields to the caller only once the readiness latch is
set, which requires that some observed `window/logMessage` text contains
the completion marker. -/
theorem yield_requires_ready (paramsOk : Bool) (notifs : List String)
    (bodyRaises : Bool)
    (h : SessionEvent.yieldToCaller ∈
      startServerTrace paramsOk notifs bodyRaises) :
    sessionReady notifs = true ∧
    ∃ m ∈ notifs, strContains m "Finished" = true := by
  cases hs : sessionReady notifs with
  | true =>
    refine ⟨rfl, ?_⟩
    have h' : List.foldl windowLogMessage false notifs = true := hs
    rcases foldl_wlm_exists notifs false h' with h'' | hex
    · exact absurd h'' (by decide)
    · exact hex
  | false =>
    exfalso
    cases paramsOk with
    | false =>
      have h2 : SessionEvent.yieldToCaller ∈
          handlerRegistrations ++ [SessionEvent.processStart] ++ [] := h
      exact absurd h2 (by decide)
    | true =>
      cases bodyRaises with
      | false =>
        simp only [startServerTrace, hs] at h
        exact absurd h (by decide)
      | true =>
        simp only [startServerTrace, hs] at h
        exact absurd h (by decide)

/-- Witness for C6: a session that yielded after observing a matching
notification. -/
theorem yield_requires_ready_witness :
    sessionReady ["indexing Finished"] = true ∧
    ∃ m ∈ ["indexing Finished"], strContains m "Finished" = true :=
  yield_requires_ready true ["indexing Finished"] false (by decide)

/-- C1 (refuted): a session whose caller body raises reaches the yield,
yet neither the shutdown request nor the stop of the child process is
driven — those statements follow the `yield` with no `try`/`finally` —
while a normally completing session drives the shutdown request and then
the stop. So cleanup is not guaranteed on every exit path. -/
theorem startServer_exception_skips_shutdown :
    SessionEvent.yieldToCaller ∈
      startServerTrace true ["indexing Finished"] true ∧
    SessionEvent.requestShutdown ∉
      startServerTrace true ["indexing Finished"] true ∧
    SessionEvent.stopServer ∉
      startServerTrace true ["indexing Finished"] true ∧
    SessionEvent.requestShutdown ∈
      startServerTrace true ["indexing Finished"] false ∧
    SessionEvent.stopServer ∈
      startServerTrace true ["indexing Finished"] false ∧
    precedes SessionEvent.requestShutdown SessionEvent.stopServer
      (startServerTrace true ["indexing Finished"] false) = true := by
  decide
